import Mathlib

/-!
Verification of the extensibility core of a plugin-driven command runner:
the global-parameter registry and resolver (`buildGlobalParametersMap`,
`buildGlobalParameterDefinition`, `resolveGlobalArguments` from
`src/internal/global-parameters.ts`) and the hook-dispatch engine
(`runHandlerChain`, `runSequentialHandlers`, `runParallelHandlers`).

The global-parameter functions are translated directly from the source.
The helpers of `src/internal/parameters.ts` (name casing, reserved names,
value validation, string parsing) and the hook manager implementation are
not part of the provided sources, so they are modelled from the spec, as
marked in their doc comments.
-/

namespace HardhatCore

/-- The closed enumeration of primitive parameter types
(`ParameterType` in `src/types/common.ts`). -/
inductive ParameterType where
  | STRING
  | BOOLEAN
  | INT
  | BIGINT
  | FLOAT
  | FILE
deriving DecidableEq, Repr

/-- A typed parameter value (`ParameterValue` in `src/types/common.ts`):
the union of the native value types associated with each `ParameterType`.
FLOAT values are represented by their numeric literal token. -/
inductive ParameterValue where
  | str (s : String)
  | boolean (b : Bool)
  | int (i : Int)
  | bigint (i : Int)
  | float (tok : String)
deriving DecidableEq, Repr

/-- Modelled from the spec: the canonical lower-camel-case rule of
`isValidParamNameCasing` in `src/internal/parameters.ts` (missing from the
sources): a nonempty name starting with a lowercase letter, followed by
letters and digits only. -/
def isValidParamNameCasing (name : String) : Bool :=
  match name.data with
  | [] => false
  | c :: cs => c.isLower && cs.all (fun d => d.isAlpha || d.isDigit)

/-- Modelled from the spec: `RESERVED_PARAMETER_NAMES` in
`src/internal/parameters.ts` (missing from the sources), the process-wide
constant set of names the runtime reserves for its own purposes. -/
def RESERVED_PARAMETER_NAMES : List String :=
  ["config", "help", "showStackTraces", "version"]

/-- Modelled from the spec: a valid decimal/exponent FLOAT literal token:
optional sign, digits, optional fractional part, optional exponent. -/
def isFloatToken (s : String) : Bool :=
  let afterSign :=
    match s.data with
    | '-' :: rest => rest
    | cs => cs
  let intPart := afterSign.takeWhile Char.isDigit
  let rest₁ := afterSign.dropWhile Char.isDigit
  let rest₂ :=
    match rest₁ with
    | '.' :: ds =>
      if (ds.takeWhile Char.isDigit).isEmpty then ['.']
      else ds.dropWhile Char.isDigit
    | r => r
  let expOk :=
    match rest₂ with
    | [] => true
    | 'e' :: es | 'E' :: es =>
      let esBody :=
        match es with
        | '-' :: bs | '+' :: bs => bs
        | bs => bs
      !esBody.isEmpty && esBody.all Char.isDigit
    | _ => false
  !intPart.isEmpty && expOk

/-- Modelled from the spec: `isParameterValueValid` in
`src/internal/parameters.ts` (missing from the sources): checks that an
already-typed value satisfies the given type's predicate; used to validate
programmatic default values. -/
def isParameterValueValid (t : ParameterType) (v : ParameterValue) : Bool :=
  match t, v with
  | .STRING, .str _ => true
  | .FILE, .str _ => true
  | .BOOLEAN, .boolean _ => true
  | .INT, .int _ => true
  | .BIGINT, .bigint _ => true
  | .FLOAT, .float tok => isFloatToken tok
  | _, _ => false

/-- The structured error payloads raised by the core
(`HardhatError` with the error descriptors used in
`src/internal/global-parameters.ts`). The `type` field of
`invalidValueForType` is optional because the source passes the raw
(possibly undefined) `parameterType` input there. -/
inductive HardhatErr where
  | invalidName (name : String)
  | reservedName (name : String)
  | invalidValueForType (value : ParameterValue) (name : String)
      (type : Option ParameterType)
  | globalParameterAlreadyDefined (plugin : String) (globalParameter : String)
      (definedByPlugin : String)
deriving DecidableEq, Repr

deriving instance DecidableEq for Except

/-- The natural number denoted by a nonempty all-digit token, if any. -/
def parseNatDigits (cs : List Char) : Option Nat :=
  if cs.isEmpty then none
  else if cs.all Char.isDigit then
    some (cs.foldl (fun n c => 10 * n + (c.toNat - '0'.toNat)) 0)
  else none

/-- The integer denoted by an integer-literal token (optional leading
minus sign followed by digits), if any. -/
def toIntDigits (cs : List Char) : Option Int :=
  match cs with
  | '-' :: rest => (parseNatDigits rest).map (fun n => -(n : Int))
  | _ => (parseNatDigits cs).map (fun n => (n : Int))

/-- Modelled from the spec: `parseParameterValue` in
`src/internal/parameters.ts` (missing from the sources):
`parseValue(raw, type)` fails with `InvalidValueForType` (carrying the raw
value, the parameter name and the type) when `raw` cannot be losslessly
parsed as `type`; BOOLEAN accepts exactly the literal true/false tokens,
INT an integer literal, BIGINT an integer literal optionally suffixed with
`n`, FLOAT a decimal/exponent form; STRING and FILE accept any string. -/
def parseParameterValue (raw : String) (t : ParameterType) (name : String) :
    Except HardhatErr ParameterValue :=
  let fail : Except HardhatErr ParameterValue :=
    .error (.invalidValueForType (.str raw) name (some t))
  match t with
  | .STRING => .ok (.str raw)
  | .FILE => .ok (.str raw)
  | .BOOLEAN =>
    if raw = "true" then .ok (.boolean true)
    else if raw = "false" then .ok (.boolean false)
    else fail
  | .INT =>
    match toIntDigits raw.data with
    | some i => .ok (.int i)
    | none => fail
  | .BIGINT =>
    let core :=
      match raw.data.getLast? with
      | some 'n' => raw.data.dropLast
      | _ => raw.data
    match toIntDigits core with
    | some i => .ok (.bigint i)
    | none => fail
  | .FLOAT =>
    if isFloatToken raw then .ok (.float raw) else fail

/-- Modelled from the spec: `camelToSnakeCase` from the string utilities
(missing from the sources): inserts an underscore before each uppercase
letter and lowercases it. -/
def camelToSnakeCase (s : String) : String :=
  ⟨s.data.flatMap (fun c => if c.isUpper then ['_', c.toLower] else [c])⟩

/-- `String.toUpper` as used by the source on the snake-cased name. -/
def toUpperStr (s : String) : String := ⟨s.data.map Char.toUpper⟩

/-- The environment variable name the resolver reads for a parameter:
`HARDHAT_<NAME_IN_UPPER_SNAKE_CASE>`. -/
def envVarName (name : String) : String :=
  "HARDHAT_" ++ toUpperStr (camelToSnakeCase name)

/-- The input accepted by `buildGlobalParameterDefinition`:
`{ name, description, parameterType?, defaultValue }`. -/
structure GlobalParameterInput where
  name : String
  description : String
  parameterType : Option ParameterType
  defaultValue : ParameterValue
deriving DecidableEq, Repr

/-- A validated global parameter definition (`GlobalParameter` in
`src/types/global-parameters.ts`). -/
structure GlobalParameter where
  name : String
  description : String
  parameterType : ParameterType
  defaultValue : ParameterValue
deriving DecidableEq, Repr

/-- An entry of the global parameters map (`GlobalParametersMapEntry`). -/
structure GlobalParametersMapEntry where
  pluginId : String
  param : GlobalParameter
deriving DecidableEq, Repr

/-- The `GlobalParametersMap`: a name-keyed map, modelled as an
association list in insertion order with `Map.get` as first lookup. -/
abbrev GlobalParametersMap := List (String × GlobalParametersMapEntry)

/-- `Map.get` on the modelled map. -/
def mapGet (m : GlobalParametersMap) (name : String) :
    Option GlobalParametersMapEntry :=
  match m with
  | [] => none
  | (k, e) :: rest => if k = name then some e else mapGet rest name

/-- `Map.set` on the modelled map: appends a fresh binding (callers only
set names that are absent, per the conflict check). -/
def mapSet (m : GlobalParametersMap) (name : String)
    (e : GlobalParametersMapEntry) : GlobalParametersMap :=
  m ++ [(name, e)]

/-- A resolved plugin as consumed by the registry (`HardhatPlugin`):
an id and an optional list of global parameter definitions. -/
structure HardhatPlugin where
  id : String
  globalParameters : Option (List GlobalParameterInput) := none
deriving Repr

/-- `buildGlobalParameterDefinition` from
`src/internal/global-parameters.ts`: resolves the type (defaulting to
STRING), validates the name casing, reserved-name membership and the
default value, raising the corresponding errors, and returns the
normalized definition. The invalid-default error carries the literal
string "defaultValue" and the raw `parameterType` input, exactly as the
source does. -/
def buildGlobalParameterDefinition (i : GlobalParameterInput) :
    Except HardhatErr GlobalParameter :=
  let type := i.parameterType.getD .STRING
  if ¬ isValidParamNameCasing i.name then
    .error (.invalidName i.name)
  else if RESERVED_PARAMETER_NAMES.contains i.name then
    .error (.reservedName i.name)
  else if ¬ isParameterValueValid type i.defaultValue then
    .error (.invalidValueForType i.defaultValue "defaultValue" i.parameterType)
  else
    .ok { name := i.name, description := i.description,
          parameterType := type, defaultValue := i.defaultValue }

/-- The inner loop of `buildGlobalParametersMap` over one plugin's
parameter list: for each parameter, first the duplicate-name check against
the map built so far, then validation and insertion. -/
def insertPluginParams (pluginId : String) (params : List GlobalParameterInput)
    (m : GlobalParametersMap) : Except HardhatErr GlobalParametersMap :=
  match params with
  | [] => .ok m
  | p :: rest =>
    match mapGet m p.name with
    | some existingByName =>
      .error (.globalParameterAlreadyDefined pluginId p.name
        existingByName.pluginId)
    | none =>
      match buildGlobalParameterDefinition p with
      | .error e => .error e
      | .ok validated =>
        insertPluginParams pluginId rest
          (mapSet m validated.name { pluginId := pluginId, param := validated })

/-- The outer loop of `buildGlobalParametersMap` over the ordered plugin
list, starting from a given map. -/
def buildGlobalParametersMapFrom (plugins : List HardhatPlugin)
    (m : GlobalParametersMap) : Except HardhatErr GlobalParametersMap :=
  match plugins with
  | [] => .ok m
  | plugin :: rest =>
    match plugin.globalParameters with
    | none => buildGlobalParametersMapFrom rest m
    | some params =>
      match insertPluginParams plugin.id params m with
      | .error e => .error e
      | .ok m₂ => buildGlobalParametersMapFrom rest m₂

/-- `buildGlobalParametersMap` from `src/internal/global-parameters.ts`:
iterates the resolved plugins in order, skipping plugins without
`globalParameters`, validating each definition and inserting it keyed by
name, and failing with `GLOBAL_PARAMETER_ALREADY_DEFINED` when the name is
already present. -/
def buildGlobalParametersMap (resolvedPlugins : List HardhatPlugin) :
    Except HardhatErr GlobalParametersMap :=
  buildGlobalParametersMapFrom resolvedPlugins []

/-- The user-provided raw arguments: a partial map from parameter name to
raw string, modelled as an association list. -/
abbrev UserArgs := List (String × String)

/-- Record lookup on the user-provided arguments. -/
def userGet (u : UserArgs) (name : String) : Option String :=
  match u with
  | [] => none
  | (k, v) :: rest => if k = name then some v else userGet rest name

/-- The process environment, modelled as a partial map from variable name
to string (the source reads `process.env`). -/
abbrev Env := String → Option String

/-- The resolved `GlobalArguments`: a map from parameter name to typed
value, modelled as an association list in registry order. -/
abbrev GlobalArguments := List (String × ParameterValue)

/-- Lookup on the resolved global arguments. -/
def argsGet (g : GlobalArguments) (name : String) : Option ParameterValue :=
  match g with
  | [] => none
  | (k, v) :: rest => if k = name then some v else argsGet rest name

/-- The loop body of `resolveGlobalArguments` for one registry entry:
takes the user-provided raw string if present, else the
`HARDHAT_<NAME_IN_UPPER_SNAKE_CASE>` environment variable; a raw string
so found is parsed against the declared type, and otherwise the typed
`defaultValue` is taken directly without re-parsing. -/
def resolveOne (userProvidedGlobalArguments : UserArgs) (env : Env)
    (name : String) (entry : GlobalParametersMapEntry) :
    Except HardhatErr ParameterValue :=
  let value :=
    match userGet userProvidedGlobalArguments name with
    | some v => some v
    | none => env (envVarName name)
  match value with
  | some v => parseParameterValue v entry.param.parameterType name
  | none => .ok entry.param.defaultValue

/-- `resolveGlobalArguments` from `src/internal/global-parameters.ts`:
iterates the registry entries, resolving each name by the strict
user-provided > environment > default precedence of `resolveOne`, and
aborts on the first parse failure. -/
def resolveGlobalArguments (userProvidedGlobalArguments : UserArgs) (env : Env)
    (globalParametersMap : GlobalParametersMap) :
    Except HardhatErr GlobalArguments :=
  match globalParametersMap with
  | [] => .ok []
  | (name, entry) :: rest =>
    match resolveOne userProvidedGlobalArguments env name entry with
    | .error e => .error e
    | .ok parsedValue =>
      match resolveGlobalArguments userProvidedGlobalArguments env rest with
      | .error e => .error e
      | .ok res => .ok ((name, parsedValue) :: res)

/-!
The hook manager. `HookManagerImplementation` is not among the provided
sources (only its tests are), so the dispatch engine is modelled from the
spec. Handlers are asynchronous units whose observable behaviour is a
trace of side effects plus a return value; they are embedded as functions
into a writer monad over `List String` traces.
-/

/-- A computation observed as the list of side-effect events it emits and
the value it returns. -/
abbrev Traced (β : Type) := List String × β

/-- A chain handler: receives the dispatch argument vector and a `next`
continuation invoking the next-inner handler (or the default
implementation). -/
abbrev ChainHandler (Arg β : Type) := List Arg → (List Arg → Traced β) → Traced β

/-- A sequential/parallel handler: receives the dispatch argument vector. -/
abbrev SimpleHandler (Arg β : Type) := List Arg → Traced β

/-- Modelled from the spec: the hook manager state: the shared
`HookContext` set once per runtime-environment instance, and the
registrations, each against a `(category, hookName)` pair, in
registration order. -/
structure HookManager (Arg : Type) (H : Type) where
  context : Arg
  registrations : List (String × String × H)

/-- Modelled from the spec: `registerHandlers` appends a handler for the
given `(category, hookName)` pair. -/
def registerHandler (m : HookManager Arg H) (category hookName : String)
    (h : H) : HookManager Arg H :=
  { m with registrations := m.registrations ++ [(category, hookName, h)] }

/-- The `HandlerSet` for a `(category, hookName)` pair: the registered
handlers for that pair, in registration order. -/
def getHandlers (m : HookManager Arg H) (category hookName : String) :
    List H :=
  m.registrations.filterMap
    (fun r => if r.1 = category ∧ r.2.1 = hookName then some r.2.2 else none)

/-- Modelled from the spec: the category rule for the argument vector a
handler (or the default implementation) receives: for the distinguished
"config" category the call's `args` unchanged, for every other category
the shared `HookContext` prepended as first argument. -/
def dispatchArgs (category : String) (ctx : Arg) (args : List Arg) :
    List Arg :=
  if category = "config" then args else ctx :: args

/-- Modelled from the spec: the onion composition of `runHandlerChain`:
folds the handler list (in registration order) so that the most recently
registered handler runs outermost, each handler receiving a `next`
continuation that invokes the next-inner handler, and the innermost
handler's `next` invoking the default implementation. -/
def composeChain (handlers : List (ChainHandler Arg β))
    (defaultImplementation : List Arg → Traced β) : List Arg → Traced β :=
  handlers.foldl (fun inner h => fun a => h a inner) defaultImplementation

/-- Modelled from the spec: `runHandlerChain(category, hookName, args,
defaultImplementation)`: applies the composed chain for the pair's
handlers to the category-determined argument vector; with no handlers it
degenerates to the default implementation. -/
def runHandlerChain (m : HookManager Arg (ChainHandler Arg β))
    (category hookName : String) (args : List Arg)
    (defaultImplementation : List Arg → Traced β) : Traced β :=
  composeChain (getHandlers m category hookName) defaultImplementation
    (dispatchArgs category m.context args)

/-- Modelled from the spec: the sequential loop: runs each handler to
completion before the next begins, concatenating traces in invocation
order and collecting results in the same order. -/
def seqRun (hs : List (SimpleHandler Arg β)) (a : List Arg) :
    Traced (List β) :=
  match hs with
  | [] => ([], [])
  | h :: rest =>
    ((h a).1 ++ (seqRun rest a).1, (h a).2 :: (seqRun rest a).2)

/-- Modelled from the spec: `runSequentialHandlers(category, hookName,
args)`: invokes every registered handler one at a time in reverse
registration order (most recent first), each call using the same original
argument vector, collecting the results; no default implementation. -/
def runSequentialHandlers (m : HookManager Arg (SimpleHandler Arg β))
    (category hookName : String) (args : List Arg) : Traced (List β) :=
  seqRun (getHandlers m category hookName).reverse
    (dispatchArgs category m.context args)

/-- The handler invocations of a parallel dispatch as they complete:
`order` is the completion schedule (a permutation of the handler
indices); each completion carries its handler's index and its traced
outcome. -/
def completedPairs (hs : List (SimpleHandler Arg β)) (a : List Arg)
    (order : List Nat) : List (Nat × Traced β) :=
  order.filterMap (fun j => (hs[j]?).map (fun h => (j, h a)))

/-- Modelled from the spec: the parallel combinator: handlers run
concurrently, completing in the schedule's order (traces interleave in
completion order), but the result list is assembled positionally, index
by index, independent of completion order. -/
def parRun (hs : List (SimpleHandler Arg β)) (a : List Arg)
    (order : List Nat) : Traced (List β) :=
  ((completedPairs hs a order).flatMap (fun p => p.2.1),
   (List.range hs.length).filterMap
     (fun i => ((completedPairs hs a order).lookup i).map (fun p => p.2)))

/-- Modelled from the spec: `runParallelHandlers(category, hookName,
args)`: invokes every registered handler concurrently with the same
arguments and the same context-prepending rule as sequential dispatch,
with the result list keyed positionally to reverse registration order. -/
def runParallelHandlers (m : HookManager Arg (SimpleHandler Arg β))
    (category hookName : String) (args : List Arg) (order : List Nat) :
    Traced (List β) :=
  parRun (getHandlers m category hookName).reverse
    (dispatchArgs category m.context args) order

/-- An instrumented chain handler observing the spec's test shape: emits
`<label>:before`, delegates to `next` with its received arguments, emits
`<label>:after`, and returns the continuation's value. -/
def obsHandler (label : String) : ChainHandler Arg β :=
  fun a next =>
    ((label ++ ":before") :: (next a).1 ++ [label ++ ":after"], (next a).2)

/-- A reporting chain handler: returns the argument vector it received,
without calling `next`. -/
def reportChainHandler : ChainHandler Arg (List Arg) :=
  fun a _next => ([], a)

/-- A reporting sequential/parallel handler: returns the argument vector
it received. -/
def reportHandler : SimpleHandler Arg (List Arg) :=
  fun a => ([], a)

/-- A concrete two-handler manager used to evaluate the parallel/sequential
agreement on an explicit out-of-order completion schedule. -/
def parSeqFixture : HookManager Nat (SimpleHandler Nat Nat) :=
  ⟨0, [("hre", "testExample", fun _ => (["first"], 1)),
       ("hre", "testExample", fun _ => (["second"], 2))]⟩

/-- A validated boolean parameter, mirroring the repository's test data. -/
def param1Def : GlobalParameter :=
  ⟨"param1", "param1 description", .BOOLEAN, .boolean true⟩

/-- A second plugin's redeclaration of the `param1` name. -/
def param1Redecl : GlobalParameterInput :=
  ⟨"param1", "param1 description 2", some .BOOLEAN, .boolean false⟩

/-- A redeclaration of `param1` that is itself invalid (string default for
a BOOLEAN parameter). -/
def param1BadRedecl : GlobalParameterInput :=
  ⟨"param1", "param1 description 2", some .BOOLEAN, .str "bar"⟩

/-- A plugin declaring `param1`. -/
def plugin1Fixture : HardhatPlugin :=
  ⟨"plugin1", some [⟨"param1", "param1 description", some .BOOLEAN,
    .boolean true⟩]⟩

/-- A plugin redeclaring `param1` validly. -/
def plugin2Fixture : HardhatPlugin := ⟨"plugin2", some [param1Redecl]⟩

/-- A plugin redeclaring `param1` with an invalid definition. -/
def plugin2BadFixture : HardhatPlugin := ⟨"plugin2", some [param1BadRedecl]⟩

/-- The registry built from `plugin1Fixture` alone. -/
def oneParamMap : GlobalParametersMap := [("param1", ⟨"plugin1", param1Def⟩)]

/-- A three-parameter registry mirroring the repository's resolution
tests. -/
def threeParamMap : GlobalParametersMap :=
  [("param1", ⟨"plugin1", param1Def⟩),
   ("param2", ⟨"plugin1", ⟨"param2", "param2 description", .STRING,
     .str "default"⟩⟩),
   ("param3", ⟨"plugin1", ⟨"param3", "param3 description", .BIGINT,
     .bigint 0⟩⟩)]

/-- User-provided raw arguments covering `param1` and `param2`. -/
def userArgsFixture : UserArgs := [("param1", "false"), ("param2", "user")]

/-- The same user arguments plus a key absent from the registry. -/
def userArgsExtraFixture : UserArgs :=
  [("param1", "false"), ("param2", "user"), ("param4", "junk")]

/-- An environment providing `HARDHAT_PARAM3`. -/
def envFixture : Env :=
  fun v => if v = "HARDHAT_PARAM3" then some "5n" else none

/-- The same environment plus a variable for an unregistered name. -/
def envExtraFixture : Env :=
  fun v =>
    if v = "HARDHAT_PARAM3" then some "5n"
    else if v = "HARDHAT_PARAM5" then some "x" else none

/-- A user argument that does not parse as BOOLEAN. -/
def badUserArgsFixture : UserArgs := [("param1", "not a boolean")]

/-- The empty environment. -/
def emptyEnv : Env := fun _ => none

/-- An input whose programmatic default fails validation against its
declared BOOLEAN type. -/
def badDefaultInput : GlobalParameterInput :=
  ⟨"param1", "param1 description", some .BOOLEAN, .str "bar"⟩

/-- The registry entry for `param3` in `threeParamMap`. -/
def param3Entry : GlobalParametersMapEntry :=
  ⟨"plugin1", ⟨"param3", "param3 description", .BIGINT, .bigint 0⟩⟩

/-- The arguments `threeParamMap` resolves to under `userArgsFixture` and
`envFixture`. -/
def resolvedFixture : GlobalArguments :=
  [("param1", .boolean false), ("param2", .str "user"),
   ("param3", .bigint 5)]

/-- C1: For handlers H1, H2, H3 registered in that order against the same
(category, hookName), `runHandlerChain` composes them onion-style with the
most recently registered handler outermost: the observable order is H3
enters, H2 enters, H1 enters, the default implementation runs, H1 exits,
H2 exits, H3 exits, and the innermost `next` invokes the supplied default
implementation (whose trace and value appear at the core of the onion). -/
theorem runHandlerChain_onion_order {Arg β : Type} (category hookName : String)
    (ctx : Arg) (args : List Arg) (l1 l2 l3 : String)
    (defaultImplementation : List Arg → Traced β) :
    runHandlerChain
      ⟨ctx, [(category, hookName, obsHandler l1),
             (category, hookName, obsHandler l2),
             (category, hookName, obsHandler l3)]⟩
      category hookName args defaultImplementation
    = ((l3 ++ ":before") :: (l2 ++ ":before") :: (l1 ++ ":before") ::
        ((defaultImplementation (dispatchArgs category ctx args)).1 ++
          [l1 ++ ":after", l2 ++ ":after", l3 ++ ":after"]),
       (defaultImplementation (dispatchArgs category ctx args)).2) := by
  simp [runHandlerChain, getHandlers, composeChain, obsHandler]

/-- C4: For handlers H1, H2, H3 registered in that order,
`runSequentialHandlers` invokes each handler one at a time in reverse
registration order, every call receiving the same original argument
vector, and returns [H3-result, H2-result, H1-result] (traces concatenated
in the same order); with zero registered handlers it returns the empty
list. -/
theorem runSequentialHandlers_order {Arg β : Type} (category hookName : String)
    (ctx : Arg) (args : List Arg) (h1 h2 h3 : SimpleHandler Arg β) :
    runSequentialHandlers
      ⟨ctx, [(category, hookName, h1), (category, hookName, h2),
             (category, hookName, h3)]⟩ category hookName args
    = ((h3 (dispatchArgs category ctx args)).1 ++
        ((h2 (dispatchArgs category ctx args)).1 ++
          (h1 (dispatchArgs category ctx args)).1),
       [(h3 (dispatchArgs category ctx args)).2,
        (h2 (dispatchArgs category ctx args)).2,
        (h1 (dispatchArgs category ctx args)).2])
    ∧ runSequentialHandlers
        (⟨ctx, []⟩ : HookManager Arg (SimpleHandler Arg β))
        category hookName args = ([], []) := by
  constructor <;> simp [runSequentialHandlers, getHandlers, seqRun]

/-- C8: For every dispatch primitive, handlers of the "config" category
(and the chain's default implementation) receive the call's args with no
context argument, while handlers of every other category receive the
shared HookContext prepended as their first argument: a handler that
reports its received argument vector observes `args` for "config" and
`ctx :: args` otherwise, in `runHandlerChain` (with and without
handlers), `runSequentialHandlers`, and `runParallelHandlers`. -/
theorem dispatch_context_rule {Arg : Type} (category hookName : String)
    (ctx : Arg) (args : List Arg) :
    (runHandlerChain ⟨ctx, [(category, hookName, reportChainHandler)]⟩
        category hookName args (fun a => ([], a))).2
      = (if category = "config" then args else ctx :: args)
    ∧ (runHandlerChain
        (⟨ctx, []⟩ : HookManager Arg (ChainHandler Arg (List Arg)))
        category hookName args (fun a => ([], a))).2
      = (if category = "config" then args else ctx :: args)
    ∧ (runSequentialHandlers ⟨ctx, [(category, hookName, reportHandler)]⟩
        category hookName args).2
      = [if category = "config" then args else ctx :: args]
    ∧ (runParallelHandlers ⟨ctx, [(category, hookName, reportHandler)]⟩
        category hookName args [0]).2
      = [if category = "config" then args else ctx :: args] := by
  refine ⟨?_, ?_, ?_, ?_⟩ <;>
    simp [runHandlerChain, runSequentialHandlers, runParallelHandlers,
      getHandlers, composeChain, seqRun, parRun, completedPairs,
      reportChainHandler, reportHandler, dispatchArgs,
      List.range_succ, List.lookup]

/-- The results of a sequential batch are the handlers' results in
invocation order. -/
theorem seqRun_snd {Arg β : Type} (hs : List (SimpleHandler Arg β))
    (a : List Arg) : (seqRun hs a).2 = hs.map (fun h => (h a).2) := by
  induction hs with
  | nil => rfl
  | cons h rest ih => simp [seqRun, ih]

/-- Unfolding a completion schedule whose head handler index is out of
range (no such handler, no completion entry). -/
theorem completedPairs_cons_none {Arg β : Type}
    (hs : List (SimpleHandler Arg β)) (a : List Arg) (j : Nat)
    (rest : List Nat) (hj : hs[j]? = none) :
    completedPairs hs a (j :: rest) = completedPairs hs a rest := by
  unfold completedPairs
  rw [List.filterMap_cons, hj]
  rfl

/-- Unfolding a completion schedule on its head handler index. -/
theorem completedPairs_cons_some {Arg β : Type}
    (hs : List (SimpleHandler Arg β)) (a : List Arg) (j : Nat)
    (rest : List Nat) (h : SimpleHandler Arg β) (hj : hs[j]? = some h) :
    completedPairs hs a (j :: rest) = (j, h a) :: completedPairs hs a rest := by
  unfold completedPairs
  rw [List.filterMap_cons, hj]
  rfl

/-- An index never scheduled yields no completion entry. -/
theorem lookup_completedPairs_of_not_mem {Arg β : Type}
    (hs : List (SimpleHandler Arg β)) (a : List Arg) (order : List Nat)
    (i : Nat) (hi : i ∉ order) :
    (completedPairs hs a order).lookup i = none := by
  induction order with
  | nil => rfl
  | cons j rest ih =>
    have hij : i ≠ j := fun h => hi (h ▸ List.mem_cons_self j rest)
    have hrest : i ∉ rest := fun h => hi (List.mem_cons_of_mem j h)
    cases hj : hs[j]? with
    | none =>
      rw [completedPairs_cons_none hs a j rest hj]
      exact ih hrest
    | some h =>
      rw [completedPairs_cons_some hs a j rest h hj]
      simp only [List.lookup, beq_false_of_ne hij]
      exact ih hrest

/-- Looking up a scheduled handler index among the completions recovers
that handler's traced run, whatever the completion order. -/
theorem lookup_completedPairs {Arg β : Type}
    (hs : List (SimpleHandler Arg β)) (a : List Arg) (order : List Nat)
    (i : Nat) (hi : i ∈ order) :
    (completedPairs hs a order).lookup i = (hs[i]?).map (fun h => h a) := by
  induction order with
  | nil => cases hi
  | cons j rest ih =>
    by_cases hij : i = j
    · subst hij
      cases hx : hs[i]? with
      | some h =>
        rw [completedPairs_cons_some hs a i rest h hx]
        simp [List.lookup]
      | none =>
        rw [completedPairs_cons_none hs a i rest hx]
        by_cases hr : i ∈ rest
        · rw [ih hr, hx]
        · exact (lookup_completedPairs_of_not_mem hs a rest i hr).trans rfl
    · have hr : i ∈ rest := (List.mem_cons.mp hi).resolve_left hij
      cases hx : hs[j]? with
      | some h =>
        rw [completedPairs_cons_some hs a j rest h hx]
        simp only [List.lookup, beq_false_of_ne hij]
        exact ih hr
      | none =>
        rw [completedPairs_cons_none hs a j rest hx]
        exact ih hr

/-- Reassembling every position of a list through optional indexing is the
plain map. -/
theorem range_filterMap_getElem {γ δ : Type} (hs : List γ) (g : γ → δ) :
    (List.range hs.length).filterMap (fun i => (hs[i]?).map g)
      = hs.map g := by
  induction hs using List.reverseRecOn with
  | nil => rfl
  | append_singleton ys y ih =>
    rw [List.length_append, List.length_singleton, List.range_succ,
      List.filterMap_append, List.map_append]
    have h₁ : (List.range ys.length).filterMap
        (fun i => ((ys ++ [y])[i]?).map g) = ys.map g := by
      rw [← ih]
      apply List.filterMap_congr
      intro i hi
      rw [List.getElem?_append, if_pos (List.mem_range.mp hi)]
    have h₂ : ([ys.length].filterMap
        (fun i => ((ys ++ [y])[i]?).map g)) = [g y] := by
      simp [List.filterMap_cons, List.getElem?_concat_length]
    rw [h₁, h₂]
    simp

/-- The positional result list of a parallel batch under any completion
schedule that runs every handler once is the handlers' results in handler
order. -/
theorem parRun_snd {Arg β : Type} (hs : List (SimpleHandler Arg β))
    (a : List Arg) (order : List Nat)
    (hperm : order.Perm (List.range hs.length)) :
    (parRun hs a order).2 = hs.map (fun h => (h a).2) := by
  have hmem : ∀ i, i < hs.length → i ∈ order := fun i hi =>
    (hperm.mem_iff).mpr (List.mem_range.mpr hi)
  show (List.range hs.length).filterMap _ = _
  calc (List.range hs.length).filterMap
        (fun i => ((completedPairs hs a order).lookup i).map (fun p => p.2))
      = (List.range hs.length).filterMap
        (fun i => (hs[i]?).map (fun h => (h a).2)) := by
        apply List.filterMap_congr
        intro i hi
        rw [lookup_completedPairs hs a order i (hmem i (List.mem_range.mp hi))]
        cases hs[i]? <;> rfl
    _ = hs.map (fun h => (h a).2) := range_filterMap_getElem hs _

/-- C3: For any set of registered handlers,
`runParallelHandlers` returns its result list in exactly the order
`runSequentialHandlers` would produce (most-recently-registered handler's
result first), independent of the actual completion order (any completion
schedule that is a permutation of the handler indices), and returns the
empty list when no handlers are registered. -/
theorem runParallelHandlers_matches_sequential {Arg β : Type}
    (m : HookManager Arg (SimpleHandler Arg β)) (category hookName : String)
    (args : List Arg) (order : List Nat)
    (hsched : order.Perm
      (List.range (getHandlers m category hookName).length)) :
    (runParallelHandlers m category hookName args order).2
      = (runSequentialHandlers m category hookName args).2
    ∧ (getHandlers m category hookName = [] →
        (runParallelHandlers m category hookName args order).2 = []) := by
  have hfst : (runParallelHandlers m category hookName args order).2
      = (runSequentialHandlers m category hookName args).2 := by
    rw [runParallelHandlers, runSequentialHandlers,
      parRun_snd _ _ _ (by simpa using hsched), seqRun_snd]
  refine ⟨hfst, fun h => ?_⟩
  rw [hfst, runSequentialHandlers, h]
  rfl

/-- C3 witness: a two-handler manager under the reversed completion
schedule still delivers the sequential result order. -/
theorem runParallelHandlers_matches_sequential_witness :
    ([1, 0] : List Nat).Perm
      (List.range (getHandlers parSeqFixture "hre" "testExample").length)
    ∧ ((runParallelHandlers parSeqFixture "hre" "testExample" [] [1, 0]).2
        = (runSequentialHandlers parSeqFixture "hre" "testExample" []).2
      ∧ (getHandlers parSeqFixture "hre" "testExample" = [] →
          (runParallelHandlers parSeqFixture "hre" "testExample" []
            [1, 0]).2 = [])) :=
  ⟨by decide,
    runParallelHandlers_matches_sequential parSeqFixture "hre" "testExample"
      [] [1, 0] (by decide)⟩

/-- What a successful per-entry resolution says about its sources: a
user-provided raw string is parsed; the environment variable is parsed
only when the user string is absent; the typed default is taken unchanged
when both are absent. -/
theorem resolveOne_spec (u : UserArgs) (env : Env) (name : String)
    (entry : GlobalParametersMapEntry) (v : ParameterValue)
    (h : resolveOne u env name entry = .ok v) :
    (∀ raw, userGet u name = some raw →
        parseParameterValue raw entry.param.parameterType name = .ok v)
    ∧ (userGet u name = none → ∀ raw, env (envVarName name) = some raw →
        parseParameterValue raw entry.param.parameterType name = .ok v)
    ∧ (userGet u name = none → env (envVarName name) = none →
        v = entry.param.defaultValue) := by
  cases hu : userGet u name with
  | some raw₀ =>
    have hp : parseParameterValue raw₀ entry.param.parameterType name
        = .ok v := by
      simpa [resolveOne, hu] using h
    refine ⟨fun raw hraw => ?_, fun hnone => ?_, fun hnone => ?_⟩
    · injection hraw with hr
      exact hr ▸ hp
    · exact Option.noConfusion hnone
    · exact Option.noConfusion hnone
  | none =>
    cases he : env (envVarName name) with
    | some raw₀ =>
      have hp : parseParameterValue raw₀ entry.param.parameterType name
          = .ok v := by
        simpa [resolveOne, hu, he] using h
      refine ⟨fun raw hraw => ?_, fun _ raw hraw => ?_, fun _ henv => ?_⟩
      · exact Option.noConfusion hraw
      · injection hraw with hr
        exact hr ▸ hp
      · exact Option.noConfusion henv
    | none =>
      have hv : v = entry.param.defaultValue := by
        have h' := h
        simp [resolveOne, hu, he] at h'
        exact h'.symm
      refine ⟨fun raw hraw => ?_, fun _ raw hraw => ?_, fun _ _ => hv⟩
      · exact Option.noConfusion hraw
      · exact Option.noConfusion hraw

/-- C2: For every parameter name in the GlobalParametersMap,
`resolveGlobalArguments` resolves its value with strict precedence: a
name present in userArgs has its raw string parsed against the declared
type; otherwise a set `HARDHAT_<NAME_IN_UPPER_SNAKE_CASE>` environment
variable is parsed; otherwise the registry's typed defaultValue is taken
directly without being re-parsed. -/
theorem resolveGlobalArguments_precedence
    (u : UserArgs) (env : Env) (m : GlobalParametersMap)
    (res : GlobalArguments) (name : String)
    (entry : GlobalParametersMapEntry)
    (hnd : (m.map Prod.fst).Nodup)
    (hok : resolveGlobalArguments u env m = .ok res)
    (hmem : (name, entry) ∈ m) :
    ∃ v, argsGet res name = some v
      ∧ (∀ raw, userGet u name = some raw →
          parseParameterValue raw entry.param.parameterType name = .ok v)
      ∧ (userGet u name = none →
          ∀ raw, env (envVarName name) = some raw →
            parseParameterValue raw entry.param.parameterType name = .ok v)
      ∧ (userGet u name = none → env (envVarName name) = none →
          v = entry.param.defaultValue) := by
  revert hnd hok hmem
  induction m generalizing res with
  | nil =>
    intro _ _ hmem
    cases hmem
  | cons head rest ih =>
    obtain ⟨n₀, e₀⟩ := head
    intro hnd hok hmem
    cases ho : resolveOne u env n₀ e₀ with
    | error e => simp [resolveGlobalArguments, ho] at hok
    | ok v₀ =>
      cases hr : resolveGlobalArguments u env rest with
      | error e => simp [resolveGlobalArguments, ho, hr] at hok
      | ok res' =>
        simp only [resolveGlobalArguments, ho, hr] at hok
        injection hok with hok
        subst hok
        rcases List.mem_cons.mp hmem with heq | hmem'
        · injection heq with hn he
          subst hn
          subst he
          obtain ⟨h₁, h₂, h₃⟩ := resolveOne_spec u env name entry v₀ ho
          exact ⟨v₀, by simp [argsGet], h₁, h₂, h₃⟩
        · have hnodup : n₀ ∉ rest.map Prod.fst ∧ (rest.map Prod.fst).Nodup :=
            by simpa [List.nodup_cons] using hnd
          have hne : n₀ ≠ name := by
            intro hcontra
            subst hcontra
            exact hnodup.1 (List.mem_map.mpr ⟨(n₀, entry), hmem', rfl⟩)
          obtain ⟨v, hv, h₁, h₂, h₃⟩ := ih res' hnodup.2 hr hmem'
          refine ⟨v, ?_, h₁, h₂, h₃⟩
          rw [← hv]
          simp [argsGet, hne]

/-- A successful resolution binds exactly the registry's names, in
registry order. -/
theorem resolve_keys (u : UserArgs) (env : Env) (m : GlobalParametersMap)
    (res : GlobalArguments)
    (h : resolveGlobalArguments u env m = .ok res) :
    res.map Prod.fst = m.map Prod.fst := by
  revert h
  induction m generalizing res with
  | nil =>
    intro h
    simp only [resolveGlobalArguments] at h
    injection h with h
    subst h
    rfl
  | cons head rest ih =>
    obtain ⟨n₀, e₀⟩ := head
    intro h
    cases ho : resolveOne u env n₀ e₀ with
    | error e => simp [resolveGlobalArguments, ho] at h
    | ok v₀ =>
      cases hr : resolveGlobalArguments u env rest with
      | error e => simp [resolveGlobalArguments, ho, hr] at h
      | ok res' =>
        simp only [resolveGlobalArguments, ho, hr] at h
        injection h with h
        subst h
        simp [ih res' hr]

/-- Resolution reads user arguments and environment variables only at the
registry's names: inputs agreeing there resolve identically, so names
absent from the registry are ignored. -/
theorem resolve_congr (u u' : UserArgs) (env env' : Env)
    (m : GlobalParametersMap)
    (h₁ : ∀ n, n ∈ m.map Prod.fst → userGet u n = userGet u' n)
    (h₂ : ∀ n, n ∈ m.map Prod.fst →
      env (envVarName n) = env' (envVarName n)) :
    resolveGlobalArguments u env m = resolveGlobalArguments u' env' m := by
  revert h₁ h₂
  induction m with
  | nil => intro _ _; rfl
  | cons head rest ih =>
    obtain ⟨n₀, e₀⟩ := head
    intro h₁ h₂
    have hu : userGet u n₀ = userGet u' n₀ := h₁ n₀ (by simp)
    have he : env (envVarName n₀) = env' (envVarName n₀) := h₂ n₀ (by simp)
    have hone : resolveOne u env n₀ e₀ = resolveOne u' env' n₀ e₀ := by
      unfold resolveOne
      rw [hu, he]
    have hrest := ih (fun n hn => h₁ n (by simp [hn]))
      (fun n hn => h₂ n (by simp [hn]))
    simp only [resolveGlobalArguments]
    rw [hone, hrest]

/-- C6: The GlobalArguments mapping returned by `resolveGlobalArguments`
is total over the registry and nothing else: its keys are exactly the
registry's names, and user arguments or environment variables whose
parameter name is absent from the registry are silently ignored (they
cannot change the result), never an error. -/
theorem resolveGlobalArguments_total_ignores_unknown
    (u u' : UserArgs) (env env' : Env) (m : GlobalParametersMap) :
    (∀ res, resolveGlobalArguments u env m = .ok res →
        res.map Prod.fst = m.map Prod.fst)
    ∧ ((∀ n, n ∈ m.map Prod.fst → userGet u n = userGet u' n) →
       (∀ n, n ∈ m.map Prod.fst →
         env (envVarName n) = env' (envVarName n)) →
       resolveGlobalArguments u env m = resolveGlobalArguments u' env' m) :=
  ⟨fun res h => resolve_keys u env m res h,
   fun h₁ h₂ => resolve_congr u u' env env' m h₁ h₂⟩

/-- C2 witness: `param3` resolves through the environment variable
`HARDHAT_PARAM3` in the three-parameter registry. -/
theorem resolveGlobalArguments_precedence_witness :
    (threeParamMap.map Prod.fst).Nodup
    ∧ resolveGlobalArguments userArgsFixture envFixture threeParamMap
        = .ok resolvedFixture
    ∧ ("param3", param3Entry) ∈ threeParamMap
    ∧ (∃ v, argsGet resolvedFixture "param3" = some v
        ∧ (∀ raw, userGet userArgsFixture "param3" = some raw →
            parseParameterValue raw param3Entry.param.parameterType "param3"
              = .ok v)
        ∧ (userGet userArgsFixture "param3" = none →
            ∀ raw, envFixture (envVarName "param3") = some raw →
              parseParameterValue raw param3Entry.param.parameterType "param3"
                = .ok v)
        ∧ (userGet userArgsFixture "param3" = none →
            envFixture (envVarName "param3") = none →
              v = param3Entry.param.defaultValue)) :=
  ⟨by decide, by decide, by decide,
    resolveGlobalArguments_precedence userArgsFixture envFixture
      threeParamMap resolvedFixture "param3" param3Entry
      (by decide) (by decide) (by decide)⟩

/-- C6 witness: adding an unregistered user argument and an unregistered
environment variable changes nothing, and the resolved keys are exactly
the registry's. -/
theorem resolveGlobalArguments_total_ignores_unknown_witness :
    resolvedFixture.map Prod.fst = threeParamMap.map Prod.fst
    ∧ resolveGlobalArguments userArgsExtraFixture envExtraFixture
        threeParamMap
      = resolveGlobalArguments userArgsFixture envFixture threeParamMap :=
  ⟨(resolveGlobalArguments_total_ignores_unknown userArgsExtraFixture
      userArgsFixture envExtraFixture envFixture threeParamMap).1
      resolvedFixture (by decide),
   (resolveGlobalArguments_total_ignores_unknown userArgsExtraFixture
      userArgsFixture envExtraFixture envFixture threeParamMap).2
      (by decide) (by decide)⟩

/-- The only parse failure is `InvalidValueForType` carrying the raw
value, the parameter name, and the declared type. -/
theorem parseParameterValue_error_shape (raw : String) (t : ParameterType)
    (name : String) (e : HardhatErr)
    (h : parseParameterValue raw t name = .error e) :
    e = .invalidValueForType (.str raw) name (some t) := by
  cases t with
  | STRING =>
    simp only [parseParameterValue] at h
    exact Except.noConfusion h
  | FILE =>
    simp only [parseParameterValue] at h
    exact Except.noConfusion h
  | BOOLEAN =>
    simp only [parseParameterValue] at h
    split at h
    · exact Except.noConfusion h
    · split at h
      · exact Except.noConfusion h
      · injection h with h
        exact h.symm
  | INT =>
    simp only [parseParameterValue] at h
    split at h
    · exact Except.noConfusion h
    · injection h with h
      exact h.symm
  | BIGINT =>
    simp only [parseParameterValue] at h
    split at h
    · exact Except.noConfusion h
    · injection h with h
      exact h.symm
  | FLOAT =>
    simp only [parseParameterValue] at h
    split at h
    · exact Except.noConfusion h
    · injection h with h
      exact h.symm

/-- C9: If the raw string chosen from userArgs or the environment fails
to parse against the parameter's declared type, `resolveGlobalArguments`
returns the `InvalidValueForType` error naming the parameter, the
offending raw value, and the type, and the entire call aborts: the result
is that error, not a partial argument set. -/
theorem resolveGlobalArguments_fail_fast
    (u : UserArgs) (env : Env) (m₁ m₂ : GlobalParametersMap)
    (name : String) (entry : GlobalParametersMapEntry) (raw : String)
    (res₁ : GlobalArguments) (e : HardhatErr)
    (hpre : resolveGlobalArguments u env m₁ = .ok res₁)
    (hraw : userGet u name = some raw
      ∨ (userGet u name = none ∧ env (envVarName name) = some raw))
    (hfail : parseParameterValue raw entry.param.parameterType name
      = .error e) :
    resolveGlobalArguments u env (m₁ ++ (name, entry) :: m₂) = .error e
    ∧ e = .invalidValueForType (.str raw) name
        (some entry.param.parameterType) := by
  have hone : resolveOne u env name entry = .error e := by
    rcases hraw with h | ⟨h₁, h₂⟩
    · simp [resolveOne, h, hfail]
    · simp [resolveOne, h₁, h₂, hfail]
  refine ⟨?_, parseParameterValue_error_shape raw entry.param.parameterType
    name e hfail⟩
  revert hpre
  induction m₁ generalizing res₁ with
  | nil =>
    intro _
    simp [resolveGlobalArguments, hone]
  | cons head rest ih =>
    obtain ⟨n₀, e₀⟩ := head
    intro hpre
    cases ho : resolveOne u env n₀ e₀ with
    | error e' => simp [resolveGlobalArguments, ho] at hpre
    | ok v₀ =>
      cases hr : resolveGlobalArguments u env rest with
      | error e' => simp [resolveGlobalArguments, ho, hr] at hpre
      | ok res' =>
        have htail := ih res' hr
        simp only [List.cons_append, resolveGlobalArguments, ho]
        rw [List.append_eq, htail]

/-- C9 witness: the repository's test scenario: a BOOLEAN parameter with
user value "not a boolean" makes the whole resolution fail with the
structured error. -/
theorem resolveGlobalArguments_fail_fast_witness :
    resolveGlobalArguments badUserArgsFixture emptyEnv [] = .ok []
    ∧ userGet badUserArgsFixture "param1" = some "not a boolean"
    ∧ parseParameterValue "not a boolean" ParameterType.BOOLEAN "param1"
        = .error (.invalidValueForType (.str "not a boolean") "param1"
            (some .BOOLEAN))
    ∧ (resolveGlobalArguments badUserArgsFixture emptyEnv
          ([] ++ ("param1", ⟨"plugin1", param1Def⟩) :: [])
        = .error (.invalidValueForType (.str "not a boolean") "param1"
            (some .BOOLEAN))
      ∧ (HardhatErr.invalidValueForType (.str "not a boolean") "param1"
            (some .BOOLEAN))
        = .invalidValueForType (.str "not a boolean") "param1"
            (some ParameterType.BOOLEAN)) :=
  ⟨by decide, by decide, by decide,
    resolveGlobalArguments_fail_fast badUserArgsFixture emptyEnv [] []
      "param1" ⟨"plugin1", param1Def⟩ "not a boolean" []
      (.invalidValueForType (.str "not a boolean") "param1" (some .BOOLEAN))
      (by decide) (Or.inl (by decide)) (by decide)⟩

/-- Processing an appended plugin list continues from the map the prefix
built, or propagates the prefix's error. -/
theorem buildFrom_append (ps qs : List HardhatPlugin)
    (m : GlobalParametersMap) :
    buildGlobalParametersMapFrom (ps ++ qs) m
      = match buildGlobalParametersMapFrom ps m with
        | .error e => .error e
        | .ok m₂ => buildGlobalParametersMapFrom qs m₂ := by
  induction ps generalizing m with
  | nil => rfl
  | cons p ps ih =>
    cases hgp : p.globalParameters with
    | none => simp [buildGlobalParametersMapFrom, hgp, ih]
    | some params =>
      cases hins : insertPluginParams p.id params m with
      | error e => simp [buildGlobalParametersMapFrom, hgp, hins]
      | ok m₂ => simp [buildGlobalParametersMapFrom, hgp, hins, ih]

/-- The conflict argument shared by the duplicate-name theorems: a later
plugin redeclaring a name already present in the built map fails with the
conflict error before anything else happens to that definition. -/
theorem buildMap_conflict_core (ps : List HardhatPlugin)
    (m : GlobalParametersMap) (q : HardhatPlugin)
    (d : GlobalParameterInput) (rest : List GlobalParameterInput)
    (i₁ : String) (gp : GlobalParameter)
    (hps : buildGlobalParametersMap ps = .ok m)
    (hm : mapGet m d.name = some ⟨i₁, gp⟩)
    (hq : q.globalParameters = some (d :: rest)) :
    buildGlobalParametersMap (ps ++ [q])
      = .error (.globalParameterAlreadyDefined q.id d.name i₁) := by
  unfold buildGlobalParametersMap at hps ⊢
  rw [buildFrom_append, hps]
  simp [buildGlobalParametersMapFrom, hq, insertPluginParams, hm]

/-- C5: For an ordered plugin list in which a later plugin declares a
global parameter whose name an earlier plugin already registered,
`buildGlobalParametersMap` fails with `GlobalParameterAlreadyDefined`
carrying the later plugin's id as offender, the parameter name, and the
id recorded for the earlier plugin as the original owner. -/
theorem buildGlobalParametersMap_conflict (ps : List HardhatPlugin)
    (m : GlobalParametersMap) (q : HardhatPlugin)
    (d : GlobalParameterInput) (rest : List GlobalParameterInput)
    (i₁ : String) (gp : GlobalParameter)
    (hps : buildGlobalParametersMap ps = .ok m)
    (hm : mapGet m d.name = some ⟨i₁, gp⟩)
    (hq : q.globalParameters = some (d :: rest)) :
    buildGlobalParametersMap (ps ++ [q])
      = .error (.globalParameterAlreadyDefined q.id d.name i₁) :=
  buildMap_conflict_core ps m q d rest i₁ gp hps hm hq

/-- C5 witness: the repository's two-plugin test scenario. -/
theorem buildGlobalParametersMap_conflict_witness :
    buildGlobalParametersMap [plugin1Fixture] = .ok oneParamMap
    ∧ mapGet oneParamMap "param1" = some ⟨"plugin1", param1Def⟩
    ∧ plugin2Fixture.globalParameters = some [param1Redecl]
    ∧ buildGlobalParametersMap ([plugin1Fixture] ++ [plugin2Fixture])
        = .error (.globalParameterAlreadyDefined "plugin2" "param1"
            "plugin1") :=
  ⟨by decide, by decide, by decide,
    buildGlobalParametersMap_conflict [plugin1Fixture] oneParamMap
      plugin2Fixture param1Redecl [] "plugin1" param1Def
      (by decide) (by decide) (by decide)⟩

/-- C10: The duplicate-name check runs before the definition is
validated: a later plugin redeclaring a name already in the map fails
with `GlobalParameterAlreadyDefined` even when that later definition
would itself be rejected by `buildGlobalParameterDefinition`. -/
theorem buildGlobalParametersMap_conflict_before_validation
    (ps : List HardhatPlugin) (m : GlobalParametersMap) (q : HardhatPlugin)
    (d : GlobalParameterInput) (rest : List GlobalParameterInput)
    (i₁ : String) (gp : GlobalParameter)
    (hps : buildGlobalParametersMap ps = .ok m)
    (hm : mapGet m d.name = some ⟨i₁, gp⟩)
    (hq : q.globalParameters = some (d :: rest))
    (_hbad : ∃ e', buildGlobalParameterDefinition d = .error e') :
    buildGlobalParametersMap (ps ++ [q])
      = .error (.globalParameterAlreadyDefined q.id d.name i₁) :=
  buildMap_conflict_core ps m q d rest i₁ gp hps hm hq

/-- C10 witness: the redeclaration's own definition is invalid (string
default for a BOOLEAN), yet the conflict error wins. -/
theorem buildGlobalParametersMap_conflict_before_validation_witness :
    buildGlobalParametersMap [plugin1Fixture] = .ok oneParamMap
    ∧ mapGet oneParamMap "param1" = some ⟨"plugin1", param1Def⟩
    ∧ plugin2BadFixture.globalParameters = some [param1BadRedecl]
    ∧ buildGlobalParameterDefinition param1BadRedecl
        = .error (.invalidValueForType (.str "bar") "defaultValue"
            (some .BOOLEAN))
    ∧ buildGlobalParametersMap ([plugin1Fixture] ++ [plugin2BadFixture])
        = .error (.globalParameterAlreadyDefined "plugin2" "param1"
            "plugin1") :=
  ⟨by decide, by decide, by decide, by decide,
    buildGlobalParametersMap_conflict_before_validation [plugin1Fixture]
      oneParamMap plugin2BadFixture param1BadRedecl [] "plugin1" param1Def
      (by decide) (by decide) (by decide)
      ⟨.invalidValueForType (.str "bar") "defaultValue" (some .BOOLEAN),
        by decide⟩⟩

/-- C7 counterexample: the invalid-default error carries the literal
string "defaultValue", not the parameter's name, and the raw (possibly
absent) declared type rather than the resolved one: on `badDefaultInput`
(named "param1") the payload's name field is "defaultValue", and on an
input whose type was defaulted to STRING the payload's type field is
`none`. -/
theorem buildGlobalParameterDefinition_payload_cex :
    buildGlobalParameterDefinition badDefaultInput
      = .error (.invalidValueForType (.str "bar") "defaultValue"
          (some .BOOLEAN))
    ∧ buildGlobalParameterDefinition badDefaultInput
        ≠ .error (.invalidValueForType (.str "bar") "param1"
            (some .BOOLEAN))
    ∧ buildGlobalParameterDefinition
        ⟨"param1", "param1 description", none, .boolean true⟩
      = .error (.invalidValueForType (.boolean true) "defaultValue" none) :=
  ⟨by decide, by decide, by decide⟩

/-- C7 (amended): When a programmatic defaultValue fails validation
against the parameter's declared (possibly defaulted-to-STRING) type,
`buildGlobalParameterDefinition` raises `InvalidValueForType` carrying
the offending value, the literal name "defaultValue" (not the
parameter's name), and the `parameterType` input as supplied (absent when
the type was defaulted), not the resolved type. -/
theorem buildGlobalParameterDefinition_invalid_default
    (i : GlobalParameterInput)
    (hname : isValidParamNameCasing i.name = true)
    (hres : RESERVED_PARAMETER_NAMES.contains i.name = false)
    (hval : isParameterValueValid (i.parameterType.getD .STRING)
      i.defaultValue = false) :
    buildGlobalParameterDefinition i
      = .error (.invalidValueForType i.defaultValue "defaultValue"
          i.parameterType) := by
  unfold buildGlobalParameterDefinition
  have hres' : i.name ∉ RESERVED_PARAMETER_NAMES := by simpa using hres
  simp [hname, hres', hval]

/-- C7 witness: the amended payload on the invalid-default input. -/
theorem buildGlobalParameterDefinition_invalid_default_witness :
    isValidParamNameCasing badDefaultInput.name = true
    ∧ RESERVED_PARAMETER_NAMES.contains badDefaultInput.name = false
    ∧ isParameterValueValid (badDefaultInput.parameterType.getD .STRING)
        badDefaultInput.defaultValue = false
    ∧ buildGlobalParameterDefinition badDefaultInput
        = .error (.invalidValueForType badDefaultInput.defaultValue
            "defaultValue" badDefaultInput.parameterType) :=
  ⟨by decide, by decide, by decide,
    buildGlobalParameterDefinition_invalid_default badDefaultInput
      (by decide) (by decide) (by decide)⟩

end HardhatCore
